import Mathlib

/-!
Verification of the Wiremit frontend financial core
(`src/lib/utils/financial.ts`, `src/lib/constants.ts`, API service transform).

JavaScript numbers are modelled as exact rationals (ℚ); `Math.ceil` is `Int.ceil`.
All spec-level amounts are decimals with at most two fractional digits, for which
this exact model agrees with the source's arithmetic at the claimed rounding
boundaries. Strings are modelled as Lean `String` / `List Char`.
-/

/-- Destination country, the closed set `'UK' | 'South Africa'` from the source. -/
inductive Destination where
  | UK
  | SouthAfrica
deriving DecidableEq

/-- User tier, the closed set `'basic' | 'premium' | 'enterprise'` from `types/index.ts`. -/
inductive UserTier where
  | basic
  | premium
  | enterprise
deriving DecidableEq

/-- The `User` interface, projected to the one field `validateTransactionAmount`
reads (`user.tier`); the other fields (id, email, ...) are never consulted by the
functions under verification. -/
structure User where
  tier : UserTier
deriving DecidableEq

/-- The `perTransaction: { min, max }` record of `TRANSACTION_LIMITS`. -/
structure PerTransactionLimit where
  min : ℚ
  max : ℚ
deriving DecidableEq

/-- One entry of `TRANSACTION_LIMITS`: `{ daily, monthly, perTransaction }`. -/
structure TierLimits where
  daily : ℚ
  monthly : ℚ
  perTransaction : PerTransactionLimit
deriving DecidableEq

/-- `TRANSACTION_LIMITS` from `src/lib/constants.ts` lines 35-51. -/
def TRANSACTION_LIMITS : UserTier → TierLimits
  | .basic => ⟨1000, 10000, ⟨1, 500⟩⟩
  | .premium => ⟨5000, 50000, ⟨1, 2000⟩⟩
  | .enterprise => ⟨20000, 200000, ⟨1, 10000⟩⟩

/-- `calculateFee` from `financial.ts` lines 9-13:
`Math.ceil((amount * feePercentage) / 100 * 100) / 100` with
`feePercentage = destinationCountry === 'UK' ? 10 : 20`. -/
def calculateFee (amount : ℚ) (destinationCountry : Destination) : ℚ :=
  let feePercentage : ℚ := match destinationCountry with
    | .UK => 10
    | .SouthAfrica => 20
  (⌈amount * feePercentage / 100 * 100⌉ : ℚ) / 100

/-- `calculateFinalAmount` from `financial.ts` lines 18-25:
`Math.ceil(amountAfterFee * exchangeRate * 100) / 100` where
`amountAfterFee = sourceAmount - fee`. -/
def calculateFinalAmount (sourceAmount exchangeRate fee : ℚ) : ℚ :=
  let amountAfterFee := sourceAmount - fee
  (⌈amountAfterFee * exchangeRate * 100⌉ : ℚ) / 100

/-- The failure kinds of `validateTransactionAmount`, one per early return of
`financial.ts` lines 61-93 (the user-facing message strings are abstracted to
these labels, named as in the spec's error taxonomy). -/
inductive ValidationError where
  | Unauthenticated
  | BelowMinimum
  | AboveMaximum
  | DailyLimitExceeded
  | MonthlyLimitExceeded
deriving DecidableEq

/-- The result shape `{ isValid: boolean; error?: string }` of
`validateTransactionAmount`, with the error message abstracted to its kind. -/
structure ValidationResult where
  isValid : Bool
  error : Option ValidationError
deriving DecidableEq

/-- `validateTransactionAmount` from `financial.ts` lines 55-96: guard clauses
in source order, each returning at once. -/
def validateTransactionAmount (amount : ℚ) (user : Option User)
    (dailySpent monthlySpent : ℚ) : ValidationResult :=
  match user with
  | none => ⟨false, some .Unauthenticated⟩
  | some u =>
    let limits := TRANSACTION_LIMITS u.tier
    if amount < limits.perTransaction.min then
      ⟨false, some .BelowMinimum⟩
    else if amount > limits.perTransaction.max then
      ⟨false, some .AboveMaximum⟩
    else if dailySpent + amount > limits.daily then
      ⟨false, some .DailyLimitExceeded⟩
    else if monthlySpent + amount > limits.monthly then
      ⟨false, some .MonthlyLimitExceeded⟩
    else
      ⟨true, none⟩

/-- The failure kinds of `parseAmount`, one per early return of `financial.ts`
lines 162-174, named as in the spec's error taxonomy (message strings abstracted). -/
inductive ParseError where
  | InvalidFormat
  | NonPositive
  | TooManyDecimals
deriving DecidableEq

/-- The result shape `{ amount: number; isValid: boolean; error?: string }` of
`parseAmount`. -/
structure ParseResult where
  amount : ℚ
  isValid : Bool
  error : Option ParseError
deriving DecidableEq

/-- The cleaning step `input.replace(/[^0-9.]/g, '')` of `parseAmount` line 159:
keep only the decimal digits and the dot. -/
def cleanChars (input : String) : List Char :=
  input.toList.filter (fun c => c.isDigit || c == '.')

/-- Value of a run of decimal digits read left to right, as JavaScript number
parsing accumulates it. -/
def digitsVal (l : List Char) : ℕ :=
  l.foldl (fun n c => 10 * n + (c.toNat - 48)) 0

/-- JavaScript `parseFloat` restricted to strings of digits and dots (the only
strings `parseAmount` line 160 feeds it, after cleaning): read the longest
prefix `digits ('.' digits)?`; the result is `NaN` (here `none`) when that
prefix holds no digit at all, otherwise the exact decimal value of the prefix.
Later characters, such as a second dot and what follows it, are ignored. -/
def jsParseFloat (l : List Char) : Option ℚ :=
  let ip := l.takeWhile Char.isDigit
  match l.dropWhile Char.isDigit with
  | c :: r2 =>
    if c = '.' then
      let fp := r2.takeWhile Char.isDigit
      if ip.isEmpty && fp.isEmpty then none
      else some ((digitsVal ip : ℚ) + (digitsVal fp : ℚ) / 10 ^ fp.length)
    else if ip.isEmpty then none else some (digitsVal ip)
  | [] => if ip.isEmpty then none else some (digitsVal ip)

/-- The characters between the first dot and the second dot (or the end) of the
cleaned string: `(cleaned.split('.')[1] || '')` of `parseAmount` line 171, whose
length is the decimal-places count checked against 2. -/
def fracPartOf (l : List Char) : List Char :=
  match l.dropWhile (fun c => c != '.') with
  | [] => []
  | _ :: rest => rest.takeWhile (fun c => c != '.')

/-- `parseAmount` from `financial.ts` lines 158-177: clean, parse, then the
three guards (`isNaN`, `amount <= 0`, `decimalPlaces > 2`) in source order. -/
def parseAmount (input : String) : ParseResult :=
  let cleaned := cleanChars input
  match jsParseFloat cleaned with
  | none => ⟨0, false, some .InvalidFormat⟩
  | some amount =>
    if amount ≤ 0 then
      ⟨0, false, some .NonPositive⟩
    else if (fracPartOf cleaned).length > 2 then
      ⟨0, false, some .TooManyDecimals⟩
    else
      ⟨amount, true, none⟩

/-- The `ExchangeRate` interface from `types/index.ts`: one positive-or-not rate
per currency in the fixed set USD, GBP, ZAR, USDT. -/
structure ExchangeRate where
  USD : ℚ
  GBP : ℚ
  ZAR : ℚ
  USDT : ℚ
deriving DecidableEq

/-- One step of the key loop in `APIService.getExchangeRates` lines 289-295:
`if (currency in rates) rates[currency] = item[currency]`. -/
def setRate (r : ExchangeRate) (key : String) (v : ℚ) : ExchangeRate :=
  if key = "USD" then { r with USD := v }
  else if key = "GBP" then { r with GBP := v }
  else if key = "ZAR" then { r with ZAR := v }
  else if key = "USDT" then { r with USDT := v }
  else r

/-- The response transform of `APIService.getExchangeRates` lines 281-295: start
from the defaults `{ USD: 1, GBP: 0.74, ZAR: 17.75, USDT: 1 }`, then for each
item of the API payload and each key of that item, overwrite the matching entry.
A payload item is modelled as its key/value list in iteration order. -/
def getExchangeRatesTransform (payload : List (List (String × ℚ))) : ExchangeRate :=
  payload.foldl (fun rates item => item.foldl (fun rs kv => setRate rs kv.1 kv.2) rates)
    ⟨1, 74/100, 1775/100, 1⟩

/-- Dividing by 100 preserves the ceiling's upper bound. -/
lemma div_hundred_le_ceil_div_hundred (x : ℚ) : x / 100 ≤ (⌈x⌉ : ℚ) / 100 :=
  (div_le_div_iff_of_pos_right (by norm_num)).mpr (Int.le_ceil x)

/-- A ceiling of a nonneg rational, divided by 100, is nonneg. -/
lemma ceil_div_hundred_nonneg (x : ℚ) (hx : 0 ≤ x) : 0 ≤ (⌈x⌉ : ℚ) / 100 := by
  have h : (0 : ℚ) ≤ (⌈x⌉ : ℚ) := by exact_mod_cast Int.ceil_nonneg hx
  positivity

/-- Evaluation of `jsParseFloat` when the cleaned string has a dot after its
leading digits. -/
lemma jsParseFloat_eval_dot (l ip r2 fp : List Char)
    (h1 : l.takeWhile Char.isDigit = ip)
    (h2 : l.dropWhile Char.isDigit = '.' :: r2)
    (h3 : r2.takeWhile Char.isDigit = fp)
    (h4 : (ip.isEmpty && fp.isEmpty) = false) :
    jsParseFloat l = some ((digitsVal ip : ℚ) + (digitsVal fp : ℚ) / 10 ^ fp.length) := by
  simp only [jsParseFloat, h1, h2, h3, h4]
  norm_num

/-- Evaluation of `jsParseFloat` when the cleaned string is all digits. -/
lemma jsParseFloat_eval_nodot (l ip : List Char)
    (h1 : l.takeWhile Char.isDigit = ip)
    (h2 : l.dropWhile Char.isDigit = [])
    (h3 : ip.isEmpty = false) :
    jsParseFloat l = some ((digitsVal ip : ℚ)) := by
  simp only [jsParseFloat, h1, h2, h3]
  norm_num

/-- Evaluation of `jsParseFloat` when no digit is readable: the `NaN` case. -/
lemma jsParseFloat_eval_nan (l : List Char)
    (h1 : (l.takeWhile Char.isDigit).isEmpty = true)
    (h2 : (l.dropWhile Char.isDigit).headD '.' = '.')
    (h3 : (((l.dropWhile Char.isDigit).tail).takeWhile Char.isDigit).isEmpty = true) :
    jsParseFloat l = none := by
  simp only [jsParseFloat]
  cases hd : l.dropWhile Char.isDigit with
  | nil => simp [h1]
  | cons c r2 =>
    rw [hd] at h2 h3
    simp only [List.headD_cons] at h2
    simp only [List.tail_cons] at h3
    subst h2
    simp [h1, h3]

/-- Evaluation of `parseAmount` on the success path, from evaluations of its
components. -/
lemma parseAmount_eval_some (input : String) (l : List Char) (q : ℚ)
    (hc : cleanChars input = l) (hp : jsParseFloat l = some q)
    (hq : ¬ q ≤ 0) (hd : ¬ (fracPartOf l).length > 2) :
    parseAmount input = ⟨q, true, none⟩ := by
  simp only [parseAmount, hc, hp, if_neg hq, if_neg hd]

/-- Evaluation of `parseAmount` on the `InvalidFormat` path. -/
lemma parseAmount_eval_nan (input : String) (l : List Char)
    (hc : cleanChars input = l) (hp : jsParseFloat l = none) :
    parseAmount input = ⟨0, false, some .InvalidFormat⟩ := by
  simp only [parseAmount, hc, hp]

/-- Evaluation of `parseAmount` on the `NonPositive` path. -/
lemma parseAmount_eval_nonpos (input : String) (l : List Char) (q : ℚ)
    (hc : cleanChars input = l) (hp : jsParseFloat l = some q) (hq : q ≤ 0) :
    parseAmount input = ⟨0, false, some .NonPositive⟩ := by
  simp only [parseAmount, hc, hp, if_pos hq]

/-- Evaluation of `parseAmount` on the `TooManyDecimals` path. -/
lemma parseAmount_eval_toomany (input : String) (l : List Char) (q : ℚ)
    (hc : cleanChars input = l) (hp : jsParseFloat l = some q)
    (hq : ¬ q ≤ 0) (hd : (fracPartOf l).length > 2) :
    parseAmount input = ⟨0, false, some .TooManyDecimals⟩ := by
  simp only [parseAmount, hc, hp, if_neg hq, if_pos hd]

/-- `takeWhile` collects exactly a leading block that satisfies the predicate,
up to the first failing element. -/
lemma takeWhile_all_append_cons {α : Type} (p : α → Bool) (l1 : List α) (x : α)
    (l2 : List α) (h1 : ∀ c ∈ l1, p c = true) (hx : p x = false) :
    (l1 ++ x :: l2).takeWhile p = l1 := by
  induction l1 with
  | nil => simp [List.takeWhile, hx]
  | cons a t ih =>
    have ha : p a = true := h1 a (List.mem_cons_self a t)
    simp only [List.cons_append, List.takeWhile, ha, List.append_eq]
    rw [ih (fun c hc => h1 c (List.mem_cons_of_mem _ hc))]

/-- `dropWhile` drops exactly a leading block that satisfies the predicate,
up to the first failing element. -/
lemma dropWhile_all_append_cons {α : Type} (p : α → Bool) (l1 : List α) (x : α)
    (l2 : List α) (h1 : ∀ c ∈ l1, p c = true) (hx : p x = false) :
    (l1 ++ x :: l2).dropWhile p = x :: l2 := by
  induction l1 with
  | nil => simp [List.dropWhile, hx]
  | cons a t ih =>
    have ha : p a = true := h1 a (List.mem_cons_self a t)
    simp only [List.cons_append, List.dropWhile, ha, List.append_eq]
    exact ih (fun c hc => h1 c (List.mem_cons_of_mem _ hc))

/-- `takeWhile` keeps a list all of whose elements satisfy the predicate. -/
lemma takeWhile_all_eq_self {α : Type} (p : α → Bool) (l : List α)
    (h : ∀ c ∈ l, p c = true) : l.takeWhile p = l := by
  induction l with
  | nil => rfl
  | cons a t ih =>
    have ha : p a = true := h a (List.mem_cons_self a t)
    simp only [List.takeWhile, ha]
    rw [ih (fun c hc => h c (List.mem_cons_of_mem _ hc))]

/-- A decimal digit is not the dot character. -/
lemma ne_dot_of_isDigit {c : Char} (h : c.isDigit = true) : (c != '.') = true := by
  rw [bne_iff_ne]
  rintro rfl
  exact absurd h (by decide)

/-- C1: for every amount `a > 0`, `calculateFee a UK = ⌈a * 0.10 * 100⌉ / 100` and
`calculateFee a SouthAfrica = ⌈a * 0.20 * 100⌉ / 100`; the fee is always `≥ 0`
and always `≥` the unrounded `a * percentage / 100` (rounds up at the cent
boundary, never down). -/
theorem calculateFee_spec (a : ℚ) (ha : 0 < a) :
    calculateFee a .UK = (⌈a * (10 / 100) * 100⌉ : ℚ) / 100 ∧
    calculateFee a .SouthAfrica = (⌈a * (20 / 100) * 100⌉ : ℚ) / 100 ∧
    0 ≤ calculateFee a .UK ∧ 0 ≤ calculateFee a .SouthAfrica ∧
    a * 10 / 100 ≤ calculateFee a .UK ∧
    a * 20 / 100 ≤ calculateFee a .SouthAfrica := by
  have euk : calculateFee a .UK = (⌈a * 10 / 100 * 100⌉ : ℚ) / 100 := rfl
  have esa : calculateFee a .SouthAfrica = (⌈a * 20 / 100 * 100⌉ : ℚ) / 100 := rfl
  have r10 : a * 10 / 100 * 100 = a * (10 / 100) * 100 := by ring
  have r20 : a * 20 / 100 * 100 = a * (20 / 100) * 100 := by ring
  refine ⟨by rw [euk, r10], by rw [esa, r20], ?_, ?_, ?_, ?_⟩
  · rw [euk]
    exact ceil_div_hundred_nonneg _ (by positivity)
  · rw [esa]
    exact ceil_div_hundred_nonneg _ (by positivity)
  · rw [euk]
    have h := div_hundred_le_ceil_div_hundred (a * 10 / 100 * 100)
    calc a * 10 / 100 = a * 10 / 100 * 100 / 100 := by ring
    _ ≤ (⌈a * 10 / 100 * 100⌉ : ℚ) / 100 := h
  · rw [esa]
    have h := div_hundred_le_ceil_div_hundred (a * 20 / 100 * 100)
    calc a * 20 / 100 = a * 20 / 100 * 100 / 100 := by ring
    _ ≤ (⌈a * 20 / 100 * 100⌉ : ℚ) / 100 := h

/-- Closed instantiation of `calculateFee_spec` at `a = 10`: the UK fee on 10 is
exactly 1.00 and the South Africa fee exactly 2.00, both above the unrounded
percentages. -/
theorem calculateFee_spec_witness :
    (0 : ℚ) < 10 ∧ calculateFee 10 .UK = 1 ∧ calculateFee 10 .SouthAfrica = 2 ∧
    0 ≤ calculateFee 10 .UK ∧ (10 : ℚ) * 10 / 100 ≤ calculateFee 10 .UK := by
  have h := calculateFee_spec 10 (by norm_num)
  exact ⟨by norm_num, by norm_num [calculateFee], by norm_num [calculateFee],
    h.2.2.1, h.2.2.2.2.1⟩

/-- C2: for all `s`, `r > 0`, `f`, `calculateFinalAmount s r f = ⌈(s-f)*r*100⌉/100`
and is `≥` the unrounded `(s-f)*r`; `calculateFinalAmount 100 0.74 10 = 66.60`,
and the end-to-end scenario `s = 200` to South Africa at rate 17.75 yields
fee 40.00 and final amount 2840.00. -/
theorem calculateFinalAmount_spec (s r f : ℚ) (hr : 0 < r) :
    calculateFinalAmount s r f = (⌈(s - f) * r * 100⌉ : ℚ) / 100 ∧
    (s - f) * r ≤ calculateFinalAmount s r f ∧
    calculateFinalAmount 100 (74 / 100) 10 = 666 / 10 ∧
    calculateFee 200 .SouthAfrica = 40 ∧
    calculateFinalAmount 200 (1775 / 100) (calculateFee 200 .SouthAfrica) = 2840 := by
  refine ⟨rfl, ?_, by norm_num [calculateFinalAmount], by norm_num [calculateFee],
    by norm_num [calculateFinalAmount, calculateFee]⟩
  have h := div_hundred_le_ceil_div_hundred ((s - f) * r * 100)
  calc (s - f) * r = (s - f) * r * 100 / 100 := by ring
  _ ≤ (⌈(s - f) * r * 100⌉ : ℚ) / 100 := h
  _ = calculateFinalAmount s r f := rfl

/-- Closed instantiation of `calculateFinalAmount_spec` at `s = 100`,
`r = 0.74 > 0`, `f = 10`. -/
theorem calculateFinalAmount_spec_witness :
    (0 : ℚ) < 74 / 100 ∧
    calculateFinalAmount 100 (74 / 100) 10 = 666 / 10 ∧
    (100 - 10 : ℚ) * (74 / 100) ≤ calculateFinalAmount 100 (74 / 100) 10 := by
  have h := calculateFinalAmount_spec 100 (74 / 100) 10 (by norm_num)
  exact ⟨by norm_num, h.2.2.1, h.2.1⟩

/-- C7: for every tier the fixed limit table satisfies
`perTransaction.min ≤ perTransaction.max` with all limits non-negative, and the
basic tier is (min 1, max 500, daily 1000, monthly 10000). -/
theorem transactionLimits_invariant :
    (∀ t : UserTier,
      (TRANSACTION_LIMITS t).perTransaction.min ≤ (TRANSACTION_LIMITS t).perTransaction.max ∧
      0 ≤ (TRANSACTION_LIMITS t).perTransaction.min ∧
      0 ≤ (TRANSACTION_LIMITS t).perTransaction.max ∧
      0 ≤ (TRANSACTION_LIMITS t).daily ∧
      0 ≤ (TRANSACTION_LIMITS t).monthly) ∧
    TRANSACTION_LIMITS .basic = ⟨1000, 10000, ⟨1, 500⟩⟩ := by
  refine ⟨fun t => ?_, rfl⟩
  cases t <;> norm_num [TRANSACTION_LIMITS]

/-- C4 counterexample: `parseAmount "-5"` does not fail with `NonPositive`; the
cleaning step strips the minus sign, so the input is accepted as 5. -/
theorem parseAmount_neg5_counterexample :
    parseAmount "-5" = ⟨5, true, none⟩ ∧
    (parseAmount "-5").error ≠ some ParseError.NonPositive := by
  have hp : jsParseFloat (cleanChars "-5") = some ((digitsVal ['5'] : ℚ)) :=
    jsParseFloat_eval_nodot _ ['5'] (by decide) (by decide) (by decide)
  have hv : ((digitsVal ['5'] : ℕ) : ℚ) = 5 := by
    have d : digitsVal ['5'] = 5 := by decide
    rw [d]
    norm_num
  rw [hv] at hp
  have he : parseAmount "-5" = ⟨5, true, none⟩ :=
    parseAmount_eval_some _ (cleanChars "-5") _ rfl hp (by norm_num) (by decide)
  exact ⟨he, by rw [he]; simp⟩

/-- C4 (amended): `parseAmount` fails with `NonPositive` for every input whose
cleaned string parses to a value `≤ 0` (only 0 is reachable, e.g. the input
`"0"`); the input `"-5"` is not such an input, because cleaning strips the
minus sign. -/
theorem parseAmount_nonPositive_amended (input : String) (q : ℚ)
    (hp : jsParseFloat (cleanChars input) = some q) (hq : q ≤ 0) :
    parseAmount input = ⟨0, false, some ParseError.NonPositive⟩ ∧
    parseAmount "0" = ⟨0, false, some ParseError.NonPositive⟩ := by
  refine ⟨parseAmount_eval_nonpos _ _ _ rfl hp hq, ?_⟩
  have h0 : jsParseFloat (cleanChars "0") = some ((digitsVal ['0'] : ℚ)) :=
    jsParseFloat_eval_nodot _ ['0'] (by decide) (by decide) (by decide)
  have hv : ((digitsVal ['0'] : ℕ) : ℚ) = 0 := by
    have d : digitsVal ['0'] = 0 := by decide
    rw [d]
    norm_num
  rw [hv] at h0
  exact parseAmount_eval_nonpos _ (cleanChars "0") _ rfl h0 le_rfl

/-- Closed instantiation of `parseAmount_nonPositive_amended` at `"0.0"`, whose
cleaned string parses to 0. -/
theorem parseAmount_nonPositive_amended_witness :
    jsParseFloat (cleanChars "0.0") = some 0 ∧ (0 : ℚ) ≤ 0 ∧
    parseAmount "0.0" = ⟨0, false, some ParseError.NonPositive⟩ := by
  have hp : jsParseFloat (cleanChars "0.0")
      = some ((digitsVal ['0'] : ℚ) + (digitsVal ['0'] : ℚ)
        / 10 ^ (['0'] : List Char).length) :=
    jsParseFloat_eval_dot _ ['0'] ['0'] ['0'] (by decide) (by decide) (by decide) (by decide)
  have hv : ((digitsVal ['0'] : ℚ) + (digitsVal ['0'] : ℚ)
      / 10 ^ (['0'] : List Char).length) = 0 := by
    have d : digitsVal ['0'] = 0 := by decide
    rw [d]
    norm_num
  rw [hv] at hp
  exact ⟨hp, le_rfl, (parseAmount_nonPositive_amended "0.0" 0 hp le_rfl).1⟩

/-- C5: given that the cleaned string parses to a value `> 0`, `parseAmount`
fails with `TooManyDecimals` exactly when the cleaned string's fractional part
(the characters between the first dot and the next dot or the end) has more
than 2 digits; in particular `parseAmount "12.345"` fails with
`TooManyDecimals`. -/
theorem parseAmount_tooManyDecimals_iff (input : String) (q : ℚ)
    (hp : jsParseFloat (cleanChars input) = some q) (hq : 0 < q) :
    ((parseAmount input).error = some ParseError.TooManyDecimals ↔
      2 < (fracPartOf (cleanChars input)).length) ∧
    parseAmount "12.345" = ⟨0, false, some ParseError.TooManyDecimals⟩ := by
  constructor
  · by_cases hd : (fracPartOf (cleanChars input)).length > 2
    · rw [parseAmount_eval_toomany _ _ _ rfl hp (not_le.mpr hq) hd]
      simp [hd]
    · rw [parseAmount_eval_some _ _ _ rfl hp (not_le.mpr hq) hd]
      simp [hd]
  · have hp2 : jsParseFloat (cleanChars "12.345")
        = some ((digitsVal ['1', '2'] : ℚ) + (digitsVal ['3', '4', '5'] : ℚ)
          / 10 ^ (['3', '4', '5'] : List Char).length) :=
      jsParseFloat_eval_dot _ ['1', '2'] ['3', '4', '5'] ['3', '4', '5']
        (by decide) (by decide) (by decide) (by decide)
    refine parseAmount_eval_toomany _ _ _ rfl hp2 ?_ (by decide)
    have d1 : digitsVal ['1', '2'] = 12 := by decide
    have d2 : digitsVal ['3', '4', '5'] = 345 := by decide
    rw [d1, d2]
    norm_num

/-- Closed instantiation of `parseAmount_tooManyDecimals_iff` at `"1.234"`,
whose cleaned string parses to 1.234 > 0 and has a 3-digit fractional part. -/
theorem parseAmount_tooManyDecimals_iff_witness :
    jsParseFloat (cleanChars "1.234") = some (617 / 500) ∧ (0 : ℚ) < 617 / 500 ∧
    ((parseAmount "1.234").error = some ParseError.TooManyDecimals ↔
      2 < (fracPartOf (cleanChars "1.234")).length) := by
  have hp : jsParseFloat (cleanChars "1.234")
      = some ((digitsVal ['1'] : ℚ) + (digitsVal ['2', '3', '4'] : ℚ)
        / 10 ^ (['2', '3', '4'] : List Char).length) :=
    jsParseFloat_eval_dot _ ['1'] ['2', '3', '4'] ['2', '3', '4']
      (by decide) (by decide) (by decide) (by decide)
  have hv : ((digitsVal ['1'] : ℚ) + (digitsVal ['2', '3', '4'] : ℚ)
      / 10 ^ (['2', '3', '4'] : List Char).length) = 617 / 500 := by
    have d1 : digitsVal ['1'] = 1 := by decide
    have d2 : digitsVal ['2', '3', '4'] = 234 := by decide
    rw [d1, d2]
    norm_num
  rw [hv] at hp
  exact ⟨hp, by norm_num,
    (parseAmount_tooManyDecimals_iff "1.234" (617 / 500) hp (by norm_num)).1⟩

/-- C3: `validateTransactionAmount` performs its checks in source order and
returns only the first failure: user absent, then per-transaction minimum, then
per-transaction maximum, then daily limit, then monthly limit, else valid. For
the basic tier, amount 0.5 fails with `BelowMinimum` even when the daily and
monthly limits would also be violated, amount 600 fails with `AboveMaximum`,
and amount 500 with dailySpent 600 fails with `DailyLimitExceeded`. -/
theorem validateTransactionAmount_order (amount : ℚ) (user : Option User)
    (dailySpent monthlySpent : ℚ) :
    (user = none →
      validateTransactionAmount amount user dailySpent monthlySpent
        = ⟨false, some .Unauthenticated⟩) ∧
    (∀ u, user = some u →
      (amount < (TRANSACTION_LIMITS u.tier).perTransaction.min →
        validateTransactionAmount amount user dailySpent monthlySpent
          = ⟨false, some .BelowMinimum⟩) ∧
      ((TRANSACTION_LIMITS u.tier).perTransaction.min ≤ amount →
        (TRANSACTION_LIMITS u.tier).perTransaction.max < amount →
        validateTransactionAmount amount user dailySpent monthlySpent
          = ⟨false, some .AboveMaximum⟩) ∧
      ((TRANSACTION_LIMITS u.tier).perTransaction.min ≤ amount →
        amount ≤ (TRANSACTION_LIMITS u.tier).perTransaction.max →
        (TRANSACTION_LIMITS u.tier).daily < dailySpent + amount →
        validateTransactionAmount amount user dailySpent monthlySpent
          = ⟨false, some .DailyLimitExceeded⟩) ∧
      ((TRANSACTION_LIMITS u.tier).perTransaction.min ≤ amount →
        amount ≤ (TRANSACTION_LIMITS u.tier).perTransaction.max →
        dailySpent + amount ≤ (TRANSACTION_LIMITS u.tier).daily →
        (TRANSACTION_LIMITS u.tier).monthly < monthlySpent + amount →
        validateTransactionAmount amount user dailySpent monthlySpent
          = ⟨false, some .MonthlyLimitExceeded⟩) ∧
      ((TRANSACTION_LIMITS u.tier).perTransaction.min ≤ amount →
        amount ≤ (TRANSACTION_LIMITS u.tier).perTransaction.max →
        dailySpent + amount ≤ (TRANSACTION_LIMITS u.tier).daily →
        monthlySpent + amount ≤ (TRANSACTION_LIMITS u.tier).monthly →
        validateTransactionAmount amount user dailySpent monthlySpent
          = ⟨true, none⟩)) ∧
    validateTransactionAmount (1 / 2) (some ⟨.basic⟩) 5000 50000
      = ⟨false, some .BelowMinimum⟩ ∧
    validateTransactionAmount 600 (some ⟨.basic⟩) 0 0
      = ⟨false, some .AboveMaximum⟩ ∧
    validateTransactionAmount 500 (some ⟨.basic⟩) 600 0
      = ⟨false, some .DailyLimitExceeded⟩ := by
  refine ⟨?_, ?_, ?_, ?_, ?_⟩
  · rintro rfl
    rfl
  · rintro u rfl
    refine ⟨?_, ?_, ?_, ?_, ?_⟩ <;> intros <;>
      simp only [validateTransactionAmount] <;> split_ifs <;>
      first
      | rfl
      | (exfalso; linarith)
  · simp only [validateTransactionAmount, TRANSACTION_LIMITS]
    norm_num
  · simp only [validateTransactionAmount, TRANSACTION_LIMITS]
    norm_num
  · simp only [validateTransactionAmount, TRANSACTION_LIMITS]
    norm_num

/-- Closed instantiation of `validateTransactionAmount_order`: for a basic-tier
user, amount 0.5 with heavy prior spend is rejected as below the minimum. -/
theorem validateTransactionAmount_order_witness :
    validateTransactionAmount (1 / 2) (some ⟨.basic⟩) 5000 50000
      = ⟨false, some .BelowMinimum⟩ :=
  ((validateTransactionAmount_order (1 / 2) (some ⟨.basic⟩) 5000 50000).2.1
    ⟨.basic⟩ rfl).1 (by norm_num [TRANSACTION_LIMITS])

/-- C10: whenever `parseAmount` returns `isValid = false`, the `amount` field of
the result is exactly 0. -/
theorem parseAmount_invalid_amount_zero (input : String)
    (h : (parseAmount input).isValid = false) : (parseAmount input).amount = 0 := by
  revert h
  simp only [parseAmount]
  rcases jsParseFloat (cleanChars input) with _ | q
  · simp
  · by_cases h1 : q ≤ 0
    · simp [h1]
    · by_cases h2 : (fracPartOf (cleanChars input)).length > 2
      · simp [h1, h2]
      · simp [h1, h2]

/-- Closed instantiation of `parseAmount_invalid_amount_zero` at `"abc"`, which
is invalid. -/
theorem parseAmount_invalid_amount_zero_witness :
    (parseAmount "abc").isValid = false ∧ (parseAmount "abc").amount = 0 := by
  have he : parseAmount "abc" = ⟨0, false, some .InvalidFormat⟩ :=
    parseAmount_eval_nan _ [] (by decide) (jsParseFloat_eval_nan [] (by decide)
      (by decide) (by decide))
  exact ⟨by rw [he], parseAmount_invalid_amount_zero "abc" (by rw [he])⟩

/-- C9: `parseAmount "1.23.45"` is accepted with amount 1.23: `parseFloat` stops
at the second dot and the decimal-places check counts only the digits between
the first and second dot. -/
theorem parseAmount_multiDot :
    parseAmount "1.23.45" = ⟨123 / 100, true, none⟩ := by
  have hp : jsParseFloat (cleanChars "1.23.45")
      = some ((digitsVal ['1'] : ℚ) + (digitsVal ['2', '3'] : ℚ)
        / 10 ^ (['2', '3'] : List Char).length) :=
    jsParseFloat_eval_dot _ ['1'] ['2', '3', '.', '4', '5'] ['2', '3']
      (by decide) (by decide) (by decide) (by decide)
  have hv : ((digitsVal ['1'] : ℚ) + (digitsVal ['2', '3'] : ℚ)
      / 10 ^ (['2', '3'] : List Char).length) = 123 / 100 := by
    have d1 : digitsVal ['1'] = 1 := by decide
    have d2 : digitsVal ['2', '3'] = 23 := by decide
    rw [d1, d2]
    norm_num
  rw [hv] at hp
  exact parseAmount_eval_some _ (cleanChars "1.23.45") _ rfl hp (by norm_num) (by decide)

/-- C6: `parseAmount` round-trips well-formed positive decimal strings with at
most 2 fractional digits: for a string of digits, one dot, then at most two
digits, with a nonzero value, `parseAmount` returns exactly the decimal value of
the string with `isValid = true` and no further rounding; and the input
`"abc"`, whose cleaned form does not parse to a number, fails with
`InvalidFormat`. -/
theorem parseAmount_roundtrip (ds fs : List Char)
    (hds : ds ≠ []) (hd : ∀ c ∈ ds, c.isDigit = true) (hf : ∀ c ∈ fs, c.isDigit = true)
    (hlen : fs.length ≤ 2) (hpos : 0 < digitsVal ds + digitsVal fs) :
    parseAmount (String.mk (ds ++ '.' :: fs))
      = ⟨(digitsVal ds : ℚ) + (digitsVal fs : ℚ) / 10 ^ fs.length, true, none⟩ ∧
    parseAmount "abc" = ⟨0, false, some ParseError.InvalidFormat⟩ := by
  have hdot : Char.isDigit '.' = false := by decide
  have hclean : cleanChars (String.mk (ds ++ '.' :: fs)) = ds ++ '.' :: fs := by
    apply List.filter_eq_self.mpr
    intro c hc
    rcases List.mem_append.mp hc with h | h
    · simp [hd c h]
    · rcases List.mem_cons.mp h with rfl | h2
      · simp
      · simp [hf c h2]
  have hip : (ds ++ '.' :: fs).takeWhile Char.isDigit = ds :=
    takeWhile_all_append_cons _ _ _ _ hd hdot
  have hdp : (ds ++ '.' :: fs).dropWhile Char.isDigit = '.' :: fs :=
    dropWhile_all_append_cons _ _ _ _ hd hdot
  have hfp : fs.takeWhile Char.isDigit = fs := takeWhile_all_eq_self _ _ hf
  have hemp : (ds.isEmpty && fs.isEmpty) = false := by
    cases ds with
    | nil => exact absurd rfl hds
    | cons a t => rfl
  have hparse : jsParseFloat (ds ++ '.' :: fs)
      = some ((digitsVal ds : ℚ) + (digitsVal fs : ℚ) / 10 ^ fs.length) :=
    jsParseFloat_eval_dot _ _ _ _ hip hdp hfp hemp
  have hfrac : fracPartOf (ds ++ '.' :: fs) = fs := by
    have h1 : (ds ++ '.' :: fs).dropWhile (fun c => c != '.') = '.' :: fs :=
      dropWhile_all_append_cons _ _ _ _
        (fun c hc => ne_dot_of_isDigit (hd c hc)) (by decide)
    simp only [fracPartOf, h1]
    exact takeWhile_all_eq_self _ _ (fun c hc => ne_dot_of_isDigit (hf c hc))
  have hqpos : 0 < (digitsVal ds : ℚ) + (digitsVal fs : ℚ) / 10 ^ fs.length := by
    rcases Nat.eq_zero_or_pos (digitsVal ds) with h0 | h0
    · have hf0 : 0 < digitsVal fs := by omega
      have hf0q : (0 : ℚ) < (digitsVal fs : ℚ) := by exact_mod_cast hf0
      have : (0 : ℚ) < (digitsVal fs : ℚ) / 10 ^ fs.length :=
        div_pos hf0q (by positivity)
      rw [h0]
      push_cast
      linarith
    · have h1 : (1 : ℚ) ≤ (digitsVal ds : ℚ) := by exact_mod_cast h0
      have h2 : (0 : ℚ) ≤ (digitsVal fs : ℚ) / 10 ^ fs.length := by positivity
      linarith
  refine ⟨parseAmount_eval_some _ _ _ hclean hparse (not_le.mpr hqpos) ?_, ?_⟩
  · rw [hfrac]
    omega
  · exact parseAmount_eval_nan _ [] (by decide)
      (jsParseFloat_eval_nan [] (by decide) (by decide) (by decide))

/-- Closed instantiation of `parseAmount_roundtrip` at `"123.45"`. -/
theorem parseAmount_roundtrip_witness :
    parseAmount "123.45" = ⟨12345 / 100, true, none⟩ := by
  have e : "123.45" = String.mk (['1', '2', '3'] ++ '.' :: ['4', '5']) := by decide
  rw [e, (parseAmount_roundtrip ['1', '2', '3'] ['4', '5'] (by decide) (by decide)
    (by decide) (by decide) (by decide)).1]
  have d1 : digitsVal ['1', '2', '3'] = 123 := by decide
  have d2 : digitsVal ['4', '5'] = 45 := by decide
  rw [d1, d2]
  norm_num

/-- The invariant C8 claims of every produced table: USD maps to 1 and all four
rates are positive. -/
def RatesOK (r : ExchangeRate) : Prop :=
  r.USD = 1 ∧ 0 < r.USD ∧ 0 < r.GBP ∧ 0 < r.ZAR ∧ 0 < r.USDT

/-- A payload entry that cannot break the invariant: if its key is USD its
value is 1, and if its key is any of the four table currencies its value is
positive. Keys outside the table are unconstrained (the transform ignores
them). -/
def GoodEntry (kv : String × ℚ) : Prop :=
  (kv.1 = "USD" → kv.2 = 1) ∧
  (kv.1 = "USD" ∨ kv.1 = "GBP" ∨ kv.1 = "ZAR" ∨ kv.1 = "USDT" → 0 < kv.2)

/-- `setRate` keeps the invariant on well-behaved entries. -/
lemma setRate_preserves (r : ExchangeRate) (kv : String × ℚ)
    (hr : RatesOK r) (hkv : GoodEntry kv) : RatesOK (setRate r kv.1 kv.2) := by
  obtain ⟨hU, hpU, hpG, hpZ, hpT⟩ := hr
  obtain ⟨h1, hpos⟩ := hkv
  unfold setRate
  split_ifs with e1 e2 e3 e4
  · exact ⟨h1 e1, by rw [h1 e1]; norm_num, hpG, hpZ, hpT⟩
  · exact ⟨hU, hpU, hpos (Or.inr (Or.inl e2)), hpZ, hpT⟩
  · exact ⟨hU, hpU, hpG, hpos (Or.inr (Or.inr (Or.inl e3))), hpT⟩
  · exact ⟨hU, hpU, hpG, hpZ, hpos (Or.inr (Or.inr (Or.inr e4)))⟩
  · exact ⟨hU, hpU, hpG, hpZ, hpT⟩

/-- Folding one payload item of well-behaved entries keeps the invariant. -/
lemma foldl_item_preserves (item : List (String × ℚ)) (r : ExchangeRate)
    (hr : RatesOK r) (h : ∀ kv ∈ item, GoodEntry kv) :
    RatesOK (item.foldl (fun rs kv => setRate rs kv.1 kv.2) r) := by
  induction item generalizing r with
  | nil => exact hr
  | cons a t ih =>
    exact ih _ (setRate_preserves _ _ hr (h a (List.mem_cons_self a t)))
      (fun kv hk => h kv (List.mem_cons_of_mem _ hk))

/-- Folding a whole payload of well-behaved entries keeps the invariant. -/
lemma foldl_payload_preserves (payload : List (List (String × ℚ)))
    (r : ExchangeRate) (hr : RatesOK r)
    (h : ∀ item ∈ payload, ∀ kv ∈ item, GoodEntry kv) :
    RatesOK (payload.foldl
      (fun rates item => item.foldl (fun rs kv => setRate rs kv.1 kv.2) rates) r) := by
  induction payload generalizing r with
  | nil => exact hr
  | cons a t ih =>
    exact ih _ (foldl_item_preserves _ _ hr (h a (List.mem_cons_self a t)))
      (fun item hi kv hk => h item (List.mem_cons_of_mem _ hi) kv hk)

/-- C8 counterexample: the transform of `getExchangeRates` does not guarantee
the claimed invariant for every payload; a payload entry may overwrite USD
(yielding USD = 2 ≠ 1) or set a non-positive rate (GBP = -1). -/
theorem getExchangeRates_invariant_counterexample :
    (getExchangeRatesTransform [[("USD", 2)]]).USD ≠ 1 ∧
    (getExchangeRatesTransform [[("USD", 2)]]).USD = 2 ∧
    (getExchangeRatesTransform [[("GBP", -1)]]).GBP = -1 := by
  have hne : ("GBP" : String) ≠ "USD" := by decide
  refine ⟨?_, ?_, ?_⟩ <;> norm_num [getExchangeRatesTransform, setRate, hne]

/-- C8 (amended): the table produced by the `getExchangeRates` transform maps
USD to 1 and holds positive rates for all four currencies USD, GBP, ZAR, USDT
for every payload whose entries with keys among the four currencies are
well-behaved (USD entries equal 1, four-currency entries positive) — in
particular for the empty payload, where the defaults stand. Payload entries for
the four currencies do overwrite the table, so the invariant does not hold for
arbitrary payloads. -/
theorem getExchangeRates_invariant_amended (payload : List (List (String × ℚ)))
    (h : ∀ item ∈ payload, ∀ kv ∈ item, GoodEntry kv) :
    (getExchangeRatesTransform payload).USD = 1 ∧
    0 < (getExchangeRatesTransform payload).USD ∧
    0 < (getExchangeRatesTransform payload).GBP ∧
    0 < (getExchangeRatesTransform payload).ZAR ∧
    0 < (getExchangeRatesTransform payload).USDT := by
  have hd : RatesOK ⟨1, 74 / 100, 1775 / 100, 1⟩ := by
    refine ⟨rfl, ?_, ?_, ?_, ?_⟩ <;> norm_num
  exact foldl_payload_preserves payload _ hd h

/-- Closed instantiation of `getExchangeRates_invariant_amended` at a payload
whose only entry is a well-behaved GBP update. -/
theorem getExchangeRates_invariant_amended_witness :
    (getExchangeRatesTransform [[("GBP", 1 / 2)]]).USD = 1 ∧
    0 < (getExchangeRatesTransform [[("GBP", 1 / 2)]]).GBP := by
  have h := getExchangeRates_invariant_amended [[("GBP", 1 / 2)]] ?_
  · exact ⟨h.1, h.2.2.1⟩
  · intro item hi kv hk
    simp only [List.mem_singleton] at hi
    subst hi
    simp only [List.mem_singleton] at hk
    subst hk
    constructor
    · intro hc
      exact absurd hc (by decide)
    · intro hc
      norm_num
